import Mathlib

/-!
Shallow embedding of the SW_Timer core (src/SW_Timer_executable.c).

The program multiplexes up to `TMR_NUM = 10` software timers on one 32-bit
free-running hardware counter.  All tick arithmetic in the C source is
`unsigned int` (uint32) with wraparound; we model values as `Nat` and apply
`% U32MOD` exactly where the C arithmetic wraps.

State embedded:
  - `timer_data[TMR_NUM]` (fields `wait_us`, `remain`, `times_fired`),
  - `last_update_timer_value`,
  - the write-only registers `tmr_cmp_reg` and `tmr_clr_reg`.
The read-only counter `tmr_val_reg` is an external input: each operation that
reads it takes the reading as an explicit `now` argument.
-/

/-- Number of timer slots (`#define TMR_NUM 10`). -/
abbrev TMR_NUM : Nat := 10

/-- Modulus of 32-bit unsigned arithmetic. -/
abbrev U32MOD : Nat := 2 ^ 32

/-- uint32 wrapping subtraction `a - b`. -/
def wsub (a b : Nat) : Nat := (a % U32MOD + U32MOD - b % U32MOD) % U32MOD

/-- One timer slot (`timer_data_t`). -/
structure TimerSlot where
  wait_us : Nat
  remain : Nat
  times_fired : Nat
deriving DecidableEq, Repr

/-- The mutable state of the core: the timer table, the baseline
`last_update_timer_value`, and the two write-only hardware registers. -/
structure TimerState where
  timers : Fin TMR_NUM → TimerSlot
  last_update_timer_value : Nat
  tmr_cmp_reg : Nat
  tmr_clr_reg : Nat

/-- One iteration of the scan in `find_minimal_remain`: skip inactive
entries (`wait_us == 0`), otherwise keep the smaller of the accumulator and
`remain`. -/
def fmrStep (t : Fin TMR_NUM → TimerSlot) (m : Nat) (i : Fin TMR_NUM) : Nat :=
  if (t i).wait_us = 0 then m
  else if (t i).remain < m then (t i).remain else m

/-- `find_minimal_remain()`: fold the scan over slots `0..TMR_NUM-1`,
starting from the sentinel `0xffffffff`. -/
def find_minimal_remain (t : Fin TMR_NUM → TimerSlot) : Nat :=
  (List.finRange TMR_NUM).foldl (fmrStep t) 0xffffffff

/-- The timer table produced by the body of `set_timer(timer_id, wait_us)`
when the id is in range: the named slot is assigned
`{wait_us, wait_us, 0}`, and the loop subtracts
`time_diff = current_timer_value - last_update_timer_value` (uint32
wrapping) from the `remain` of every other active slot. -/
def set_timer_timers (s : TimerState) (tid : Fin TMR_NUM) (wait_us now : Nat) :
    Fin TMR_NUM → TimerSlot := fun i =>
  if i = tid then
    { wait_us := wait_us % U32MOD, remain := wait_us % U32MOD, times_fired := 0 }
  else if (s.timers i).wait_us = 0 then s.timers i
  else { s.timers i with
    remain := wsub (s.timers i).remain (wsub (now % U32MOD) s.last_update_timer_value) }

/-- `set_timer(timer_id, wait_us)` with the counter reading `now`:
rejects `timer_id >= TMR_NUM` (early return, no mutation); otherwise
assigns the named slot, rebases the other active slots, saves
`last_update_timer_value = current_timer_value`, and writes
`tmr_cmp_reg = current_timer_value + find_minimal_remain()` (uint32). -/
def set_timer (s : TimerState) (timer_id wait_us now : Nat) : TimerState :=
  if h : timer_id < TMR_NUM then
    { timers := set_timer_timers s ⟨timer_id, h⟩ wait_us now
      last_update_timer_value := now % U32MOD
      tmr_cmp_reg :=
        (now % U32MOD + find_minimal_remain (set_timer_timers s ⟨timer_id, h⟩ wait_us now))
          % U32MOD
      tmr_clr_reg := s.tmr_clr_reg }
  else s

/-- The timer table produced by the loop of `timer_interrupt`:
`min_remain = find_minimal_remain()` is computed once from the pre-state;
each active slot gets `remain -= min_remain` (uint32 wrapping), and the
slots whose `remain` thereby reaches `0` are reloaded
(`remain = wait_us`) with `times_fired++` (uint32 increment). -/
def interrupt_timers (t : Fin TMR_NUM → TimerSlot) : Fin TMR_NUM → TimerSlot := fun i =>
  if (t i).wait_us = 0 then t i
  else if wsub (t i).remain (find_minimal_remain t) = 0 then
    { wait_us := (t i).wait_us, remain := (t i).wait_us,
      times_fired := ((t i).times_fired + 1) % U32MOD }
  else { t i with remain := wsub (t i).remain (find_minimal_remain t) }

/-- `timer_interrupt()` with the counter reading `now` at the post-loop read
of `tmr_val_reg`: advances the table, saves
`last_update_timer_value = tmr_val_reg`, arms
`tmr_cmp_reg = last_update_timer_value + find_minimal_remain()` over the
updated table, and writes `1` to the clear register. -/
def timer_interrupt (s : TimerState) (now : Nat) : TimerState :=
  { timers := interrupt_timers s.timers
    last_update_timer_value := now % U32MOD
    tmr_cmp_reg :=
      (now % U32MOD + find_minimal_remain (interrupt_timers s.timers)) % U32MOD
    tmr_clr_reg := 1 }

/-- `remove_timer(timer_id)`: rejects `timer_id >= TMR_NUM` (early return);
if the slot is already inactive, only prints a message (no mutation);
otherwise clears `wait_us`, `remain`, `times_fired` to zero.  Nothing else is
touched: no rebase, no compare-register write. -/
def remove_timer (s : TimerState) (timer_id : Nat) : TimerState :=
  if h : timer_id < TMR_NUM then
    if (s.timers ⟨timer_id, h⟩).wait_us = 0 then s
    else { s with timers := Function.update s.timers ⟨timer_id, h⟩ ⟨0, 0, 0⟩ }
  else s

/-- The initial state of the program: `timer_data` all zero,
`last_update_timer_value = 0`, registers `0`. -/
def initState : TimerState :=
  { timers := fun _ => ⟨0, 0, 0⟩
    last_update_timer_value := 0
    tmr_cmp_reg := 0
    tmr_clr_reg := 0 }

/-- The three operations of the foreground/interrupt interface; `now` is the
counter reading the operation observes. -/
inductive Op where
  | install : Nat → Nat → Nat → Op
  | remove : Nat → Op
  | tick : Nat → Op
deriving DecidableEq, Repr

/-- Apply one operation to the state. -/
def applyOp : Op → TimerState → TimerState
  | .install id P now, s => set_timer s id P now
  | .remove id, s => remove_timer s id
  | .tick now, s => timer_interrupt s now

/-- All uint32-valued slot fields are in range; true of every state the C
program can hold, since the fields are `unsigned int`. -/
def WF (s : TimerState) : Prop :=
  ∀ i, (s.timers i).wait_us < U32MOD ∧ (s.timers i).remain < U32MOD ∧
    (s.timers i).times_fired < U32MOD

instance : DecidablePred WF := fun s =>
  inferInstanceAs (Decidable (∀ i, _ ∧ _ ∧ _))

/-- The spec's quiescent-point invariant: every active slot has
`remaining <= period` (`0 <= remaining` is automatic on `Nat`). -/
def TableInv (s : TimerState) : Prop :=
  ∀ i, (s.timers i).wait_us ≠ 0 → (s.timers i).remain ≤ (s.timers i).wait_us

instance : DecidablePred TableInv := fun s =>
  inferInstanceAs (Decidable (∀ i, _ → _))

/-- A concrete state: slot 0 active with period 100 and remaining 30, slot 1
active with period 30 and remaining 30 (the tie of Scenario E), compare
register armed at 30. -/
def stateE : TimerState :=
  { timers := fun i =>
      if i = 0 then ⟨100, 30, 0⟩ else if i = 1 then ⟨30, 30, 1⟩ else ⟨0, 0, 0⟩
    last_update_timer_value := 0
    tmr_cmp_reg := 30
    tmr_clr_reg := 0 }

/-- A concrete state whose slot 0 is active with `times_fired` at the
maximum uint32 value, one fire away from wrapping. -/
def stateWrap : TimerState :=
  { timers := fun i => if i = 0 then ⟨1, 1, 4294967295⟩ else ⟨0, 0, 0⟩
    last_update_timer_value := 0
    tmr_cmp_reg := 1
    tmr_clr_reg := 0 }

/-! ### Spec-side definitions (for the refinement claims)

These follow the WORDS of spec.md §4.1/§4.2, to be compared with the
source-derived `set_timer` / `find_minimal_remain`. -/

/-- The set of active slot indices (`period != 0`) of a table. -/
def activeSet (t : Fin TMR_NUM → TimerSlot) : Finset (Fin TMR_NUM) :=
  Finset.univ.filter fun i => (t i).wait_us ≠ 0

/-- Spec §4.2: the smallest `remaining` among active slots, or the sentinel
(the maximum representable 32-bit tick value) when none are active. -/
def minActiveRemain (t : Fin TMR_NUM → TimerSlot) : Nat :=
  if h : (activeSet t).Nonempty then (activeSet t).inf' h fun i => (t i).remain
  else 0xffffffff

/-- Spec §4.1, steps (b)/(c)/(e): the named slot receives
`period = remaining = period, fire_count = 0`; every OTHER active slot has
`elapsed = now - last_sync_tick` (wraparound-safe) subtracted from its
`remaining`; inactive slots are untouched. -/
def install_spec_timers (s : TimerState) (id : Fin TMR_NUM) (P now : Nat) :
    Fin TMR_NUM → TimerSlot := fun i =>
  if i = id then { wait_us := P, remain := P, times_fired := 0 }
  else if (s.timers i).wait_us ≠ 0 then
    { s.timers i with
      remain := wsub (s.timers i).remain (wsub now s.last_update_timer_value) }
  else s.timers i

/-- Spec §4.1 `install(id, period)` with clock reading `now`, per the spec's
words: update the table per `install_spec_timers`, set
`last_sync_tick = now`, and program the compare register to
`now + min_remaining` over the updated active slots. -/
def install_spec (s : TimerState) (id : Fin TMR_NUM) (P now : Nat) : TimerState :=
  { timers := install_spec_timers s id P now
    last_update_timer_value := now
    tmr_cmp_reg := (now + minActiveRemain (install_spec_timers s id P now)) % U32MOD
    tmr_clr_reg := s.tmr_clr_reg }

/-! ### Helper lemmas -/

lemma wsub_lt (a b : Nat) : wsub a b < U32MOD := by
  unfold wsub
  exact Nat.mod_lt _ (by norm_num)

lemma wsub_of_le {a b : Nat} (hba : b ≤ a) (ha : a < U32MOD) : wsub a b = a - b := by
  simp only [wsub, U32MOD] at *
  omega

lemma fmrStep_le (t : Fin TMR_NUM → TimerSlot) (m : Nat) (i : Fin TMR_NUM) :
    fmrStep t m i ≤ m := by
  unfold fmrStep
  split_ifs <;> omega

lemma fmrFold_le (t : Fin TMR_NUM → TimerSlot) (l : List (Fin TMR_NUM)) (m : Nat) :
    l.foldl (fmrStep t) m ≤ m := by
  induction l generalizing m with
  | nil => simp
  | cons a l ih =>
    simpa using le_trans (ih (fmrStep t m a)) (fmrStep_le t m a)

lemma fmrFold_le_active (t : Fin TMR_NUM → TimerSlot) (l : List (Fin TMR_NUM))
    (m : Nat) (i : Fin TMR_NUM) (hi : i ∈ l) (ha : (t i).wait_us ≠ 0) :
    l.foldl (fmrStep t) m ≤ (t i).remain := by
  induction l generalizing m with
  | nil => cases hi
  | cons a l ih =>
    simp only [List.foldl_cons]
    rcases List.mem_cons.mp hi with h | h
    · subst h
      refine le_trans (fmrFold_le t l _) ?_
      unfold fmrStep
      rw [if_neg ha]
      split_ifs <;> omega
    · exact ih _ h

lemma fmrFold_attained (t : Fin TMR_NUM → TimerSlot) (l : List (Fin TMR_NUM))
    (m : Nat) :
    l.foldl (fmrStep t) m = m ∨
      ∃ i ∈ l, (t i).wait_us ≠ 0 ∧ l.foldl (fmrStep t) m = (t i).remain := by
  induction l generalizing m with
  | nil => left; rfl
  | cons a l ih =>
    simp only [List.foldl_cons]
    by_cases hw : (t a).wait_us = 0
    · have hs : fmrStep t m a = m := by simp [fmrStep, hw]
      rw [hs]
      exact (ih m).imp id fun ⟨i, hi, ha2, he⟩ => ⟨i, List.mem_cons_of_mem _ hi, ha2, he⟩
    · by_cases hlt : (t a).remain < m
      · have hs : fmrStep t m a = (t a).remain := by simp [fmrStep, hw, hlt]
        rw [hs]
        rcases ih ((t a).remain) with h | ⟨i, hi, ha2, he⟩
        · exact Or.inr ⟨a, List.mem_cons_self a l, hw, h⟩
        · exact Or.inr ⟨i, List.mem_cons_of_mem _ hi, ha2, he⟩
      · have hs : fmrStep t m a = m := by simp [fmrStep, hw, hlt]
        rw [hs]
        exact (ih m).imp id fun ⟨i, hi, ha2, he⟩ => ⟨i, List.mem_cons_of_mem _ hi, ha2, he⟩

lemma fmr_le_active (t : Fin TMR_NUM → TimerSlot) (i : Fin TMR_NUM)
    (ha : (t i).wait_us ≠ 0) : find_minimal_remain t ≤ (t i).remain :=
  fmrFold_le_active t _ _ i (List.mem_finRange i) ha

lemma fmr_le_sentinel (t : Fin TMR_NUM → TimerSlot) :
    find_minimal_remain t ≤ 0xffffffff :=
  fmrFold_le t _ _

lemma fmr_no_active (t : Fin TMR_NUM → TimerSlot) (h : ∀ i, (t i).wait_us = 0) :
    find_minimal_remain t = 0xffffffff := by
  rcases fmrFold_attained t (List.finRange TMR_NUM) 0xffffffff with h' | ⟨i, _, ha, _⟩
  · exact h'
  · exact absurd (h i) ha

lemma fmr_attained (t : Fin TMR_NUM → TimerSlot)
    (hr : ∀ i, (t i).wait_us ≠ 0 → (t i).remain < U32MOD)
    (i0 : Fin TMR_NUM) (ha0 : (t i0).wait_us ≠ 0) :
    ∃ i, (t i).wait_us ≠ 0 ∧ find_minimal_remain t = (t i).remain := by
  rcases fmrFold_attained t (List.finRange TMR_NUM) 0xffffffff with h | ⟨i, _, ha, he⟩
  · refine ⟨i0, ha0, le_antisymm (fmr_le_active t i0 ha0) ?_⟩
    have h1 : (t i0).remain < U32MOD := hr i0 ha0
    have hs : find_minimal_remain t = 0xffffffff := h
    rw [hs]
    simp only [U32MOD] at h1
    omega
  · exact ⟨i, ha, he⟩

lemma fmr_eq_minActiveRemain (t : Fin TMR_NUM → TimerSlot)
    (hr : ∀ i, (t i).wait_us ≠ 0 → (t i).remain < U32MOD) :
    find_minimal_remain t = minActiveRemain t := by
  unfold minActiveRemain
  split_ifs with h
  · obtain ⟨i0, hi0⟩ := Finset.Nonempty.exists_mem h
    have hi0a : (t i0).wait_us ≠ 0 := by
      simpa [activeSet] using hi0
    refine le_antisymm ?_ ?_
    · obtain ⟨b, hb, hbe⟩ := Finset.exists_mem_eq_inf' h fun i => (t i).remain
      rw [hbe]
      exact fmr_le_active t b (by simpa [activeSet] using hb)
    · obtain ⟨i, ha, he⟩ := fmr_attained t hr i0 hi0a
      rw [he]
      exact Finset.inf'_le _ (by simpa [activeSet] using ha)
  · refine fmr_no_active t fun i => ?_
    by_contra hai
    exact h ⟨i, by simpa [activeSet] using hai⟩

lemma wsub_mod_left (a b : Nat) : wsub (a % U32MOD) b = wsub a b := by
  simp only [wsub, U32MOD]
  omega

lemma interrupt_timers_wait (t : Fin TMR_NUM → TimerSlot) (i : Fin TMR_NUM) :
    (interrupt_timers t i).wait_us = (t i).wait_us := by
  unfold interrupt_timers
  split_ifs <;> rfl

lemma interrupt_timers_remain_ne (t : Fin TMR_NUM → TimerSlot) (i : Fin TMR_NUM)
    (hw : (t i).wait_us ≠ 0) : (interrupt_timers t i).remain ≠ 0 := by
  unfold interrupt_timers
  rw [if_neg hw]
  split_ifs with h0
  · simpa using hw
  · simpa using h0

lemma timerState_ext {a b : TimerState} (h1 : a.timers = b.timers)
    (h2 : a.last_update_timer_value = b.last_update_timer_value)
    (h3 : a.tmr_cmp_reg = b.tmr_cmp_reg) (h4 : a.tmr_clr_reg = b.tmr_clr_reg) :
    a = b := by
  cases a; cases b; simp_all

lemma set_timer_timers_eq_spec (s : TimerState) (tid : Fin TMR_NUM) (P now : Nat)
    (hP : P < U32MOD) (hnow : now < U32MOD) :
    set_timer_timers s tid P now = install_spec_timers s tid P now := by
  funext i
  have hPm : P % U32MOD = P := Nat.mod_eq_of_lt hP
  have hnm : now % U32MOD = now := Nat.mod_eq_of_lt hnow
  simp only [set_timer_timers, install_spec_timers, hPm, hnm]
  by_cases hit : i = tid
  · simp [hit]
  · by_cases hw : (s.timers i).wait_us = 0 <;> simp [hit, hw]

lemma install_spec_timers_remain_lt (s : TimerState) (tid : Fin TMR_NUM)
    (P now : Nat) (hP : P < U32MOD) :
    ∀ i, (install_spec_timers s tid P now i).wait_us ≠ 0 →
      (install_spec_timers s tid P now i).remain < U32MOD := by
  intro i hi
  unfold install_spec_timers at hi ⊢
  by_cases hit : i = tid
  · simpa [hit] using hP
  · by_cases hw : (s.timers i).wait_us = 0
    · simp [hit, hw] at hi
    · simpa [hit, hw] using wsub_lt _ _

lemma set_timer_spec_eq (s : TimerState) (timer_id P now : Nat)
    (h : timer_id < TMR_NUM) (hP : P < U32MOD) (hnow : now < U32MOD) :
    set_timer s timer_id P now = install_spec s ⟨timer_id, h⟩ P now := by
  have hnm : now % U32MOD = now := Nat.mod_eq_of_lt hnow
  have htt := set_timer_timers_eq_spec s ⟨timer_id, h⟩ P now hP hnow
  unfold set_timer install_spec
  rw [dif_pos h, htt, hnm,
    fmr_eq_minActiveRemain _ (install_spec_timers_remain_lt s ⟨timer_id, h⟩ P now hP)]

lemma set_timer_pos (s : TimerState) (timer_id P now : Nat) (h : timer_id < TMR_NUM) :
    set_timer s timer_id P now =
      { timers := set_timer_timers s ⟨timer_id, h⟩ P now
        last_update_timer_value := now % U32MOD
        tmr_cmp_reg :=
          (now % U32MOD + find_minimal_remain (set_timer_timers s ⟨timer_id, h⟩ P now))
            % U32MOD
        tmr_clr_reg := s.tmr_clr_reg } := by
  unfold set_timer
  rw [dif_pos h]

lemma set_timer_neg (s : TimerState) (timer_id P now : Nat)
    (h : ¬ timer_id < TMR_NUM) : set_timer s timer_id P now = s := by
  unfold set_timer
  rw [dif_neg h]

lemma remove_timer_neg (s : TimerState) (timer_id : Nat)
    (h : ¬ timer_id < TMR_NUM) : remove_timer s timer_id = s := by
  unfold remove_timer
  rw [dif_neg h]

lemma remove_timer_inactive (s : TimerState) (timer_id : Nat)
    (h : timer_id < TMR_NUM) (hin : (s.timers ⟨timer_id, h⟩).wait_us = 0) :
    remove_timer s timer_id = s := by
  unfold remove_timer
  rw [dif_pos h, if_pos hin]

lemma remove_timer_active (s : TimerState) (timer_id : Nat)
    (h : timer_id < TMR_NUM) (hin : (s.timers ⟨timer_id, h⟩).wait_us ≠ 0) :
    remove_timer s timer_id =
      { s with timers := Function.update s.timers ⟨timer_id, h⟩ ⟨0, 0, 0⟩ } := by
  unfold remove_timer
  rw [dif_pos h, if_neg hin]

/-! ### Claim theorems -/

/-- Claim C1: one invocation of `timer_interrupt` subtracts
`min_remaining = find_minimal_remain()` from the `remaining` of every active
slot; exactly those active slots whose remaining thereby reaches zero (i.e.
those whose remaining equals the minimum, so ties all fire together) are
reloaded to their period with `fire_count` incremented by one (uint32
increment); inactive slots are untouched.  The hypothesis `hr` says the
active `remain` fields are uint32 values, true of every state the C program
holds. -/
theorem C1_interrupt_advance (s : TimerState) (now : Nat)
    (hr : ∀ i, (s.timers i).wait_us ≠ 0 → (s.timers i).remain < U32MOD)
    (hact : ∃ i, (s.timers i).wait_us ≠ 0) :
    ∀ i, (timer_interrupt s now).timers i =
      if (s.timers i).wait_us = 0 then s.timers i
      else if (s.timers i).remain = find_minimal_remain s.timers then
        { wait_us := (s.timers i).wait_us, remain := (s.timers i).wait_us,
          times_fired := ((s.timers i).times_fired + 1) % U32MOD }
      else
        { s.timers i with
          remain := (s.timers i).remain - find_minimal_remain s.timers } := by
  intro i
  show interrupt_timers s.timers i = _
  unfold interrupt_timers
  by_cases hw : (s.timers i).wait_us = 0
  · simp [hw]
  · have hle : find_minimal_remain s.timers ≤ (s.timers i).remain :=
      fmr_le_active _ i hw
    have hlt : (s.timers i).remain < U32MOD := hr i hw
    have hsub : wsub (s.timers i).remain (find_minimal_remain s.timers)
        = (s.timers i).remain - find_minimal_remain s.timers := wsub_of_le hle hlt
    rw [if_neg hw, if_neg hw, hsub]
    by_cases heq : (s.timers i).remain = find_minimal_remain s.timers
    · rw [if_pos (by omega), if_pos heq]
    · rw [if_neg (by omega), if_neg heq]

/-- Witness for C1 at the tie state `stateE` (Scenario E): both slots share
the minimal remaining 30 and both fire. -/
theorem C1_interrupt_advance_witness :
    (∀ i, (stateE.timers i).wait_us ≠ 0 → (stateE.timers i).remain < U32MOD) ∧
    (∃ i, (stateE.timers i).wait_us ≠ 0) ∧
    ∀ i, (timer_interrupt stateE 30).timers i =
      if (stateE.timers i).wait_us = 0 then stateE.timers i
      else if (stateE.timers i).remain = find_minimal_remain stateE.timers then
        { wait_us := (stateE.timers i).wait_us, remain := (stateE.timers i).wait_us,
          times_fired := ((stateE.timers i).times_fired + 1) % U32MOD }
      else
        { stateE.timers i with
          remain := (stateE.timers i).remain - find_minimal_remain stateE.timers } :=
  ⟨by decide, by decide, C1_interrupt_advance stateE 30 (by decide) (by decide)⟩

/-- Claim C2: for a valid id and a nonzero period, `set_timer` has exactly
the effect the spec describes (`install_spec`, built from the spec's words:
rebase the other active slots by `elapsed`, set the baseline to `now`, give
the named slot `period = remaining = P, fire_count = 0`, arm the compare
register at `now + min_remaining`); and Scenario A arms the compare register
at 30.  `P < U32MOD` and `now < U32MOD` say the arguments are uint32
values. -/
theorem C2_set_timer_refines_spec :
    (∀ (s : TimerState) (timer_id P now : Nat) (h : timer_id < TMR_NUM),
        0 < P → P < U32MOD → now < U32MOD →
        set_timer s timer_id P now = install_spec s ⟨timer_id, h⟩ P now) ∧
    (set_timer (set_timer initState 0 100 0) 1 30 0).tmr_cmp_reg = 30 := by
  constructor
  · intro s timer_id P now h _ hP hnow
    exact set_timer_spec_eq s timer_id P now h hP hnow
  · decide

/-- Witness for C2: the second install of Scenario A. -/
theorem C2_set_timer_refines_spec_witness :
    (1 < TMR_NUM ∧ 0 < 30 ∧ 30 < U32MOD ∧ 0 < U32MOD) ∧
    set_timer (set_timer initState 0 100 0) 1 30 0 =
      install_spec (set_timer initState 0 100 0) ⟨1, by norm_num⟩ 30 0 :=
  ⟨⟨by norm_num, by norm_num, by norm_num, by norm_num⟩,
   C2_set_timer_refines_spec.1 (set_timer initState 0 100 0) 1 30 0
     (by norm_num) (by norm_num) (by norm_num) (by norm_num)⟩

/-- Counterexample to claim C3: `set_timer` has no period-0 check, so
`install(5, 0)` is NOT rejected and the state is NOT left unchanged: after
`install(5, 7)` at clock 0, a further `install(5, 0)` at clock 0 clears the
slot from `⟨7, 7, 0⟩` to inactive and rewrites the compare register from 7
to the no-active-timer sentinel value `0 + 0xffffffff`. -/
theorem C3_install_zero_cex :
    ((set_timer initState 5 7 0).timers ⟨5, by norm_num⟩ = ⟨7, 7, 0⟩ ∧
      (set_timer initState 5 7 0).tmr_cmp_reg = 7) ∧
    ((set_timer (set_timer initState 5 7 0) 5 0 0).timers ⟨5, by norm_num⟩).wait_us = 0 ∧
    (set_timer (set_timer initState 5 7 0) 5 0 0).tmr_cmp_reg = 4294967295 :=
  ⟨⟨by decide, by decide⟩, by decide, by decide⟩

/-- Amended C3: `install(id, 0)` is not rejected; it goes through the normal
install path, leaving the named slot inactive (`⟨0, 0, 0⟩`) while still
rebasing the other active slots, setting the baseline to `now`, and
reprogramming the compare register (`install_spec` with period 0). -/
theorem C3_install_zero_behavior (s : TimerState) (timer_id now : Nat)
    (h : timer_id < TMR_NUM) (hnow : now < U32MOD) :
    set_timer s timer_id 0 now = install_spec s ⟨timer_id, h⟩ 0 now ∧
    (set_timer s timer_id 0 now).timers ⟨timer_id, h⟩ = ⟨0, 0, 0⟩ := by
  have he := set_timer_spec_eq s timer_id 0 now h (by norm_num) hnow
  refine ⟨he, ?_⟩
  rw [he]
  show install_spec_timers s ⟨timer_id, h⟩ 0 now ⟨timer_id, h⟩ = ⟨0, 0, 0⟩
  simp [install_spec_timers]

/-- Witness for the amended C3, at the input of Scenario D's id. -/
theorem C3_install_zero_behavior_witness :
    (5 < TMR_NUM ∧ 0 < U32MOD) ∧
    (set_timer (set_timer initState 5 7 0) 5 0 0 =
        install_spec (set_timer initState 5 7 0) ⟨5, by norm_num⟩ 0 0 ∧
      (set_timer (set_timer initState 5 7 0) 5 0 0).timers ⟨5, by norm_num⟩ = ⟨0, 0, 0⟩) :=
  ⟨⟨by norm_num, by norm_num⟩,
   C3_install_zero_behavior (set_timer initState 5 7 0) 5 0 (by norm_num) (by norm_num)⟩

/-- Counterexample to claim C4: the invariant `remaining <= period` is NOT
preserved by every operation.  Starting from the initial state (where it
holds), `install(0, 10)` at clock 0 followed by `install(1, 5)` at clock 20
rebases slot 0 by an elapsed time (20) larger than its remaining (10); the
uint32 wrapping subtraction leaves `remaining = 2^32 - 10 > 10`.  This is
the "missed deadline" case the spec itself flags. -/
theorem C4_invariant_cex :
    TableInv initState ∧
    ¬ TableInv (set_timer (set_timer initState 0 10 0) 1 5 20) :=
  ⟨by decide, by decide⟩

/-- Amended C4: the invariant `remaining <= period` for active slots is
preserved by `remove_timer` unconditionally, by `timer_interrupt`
unconditionally, and by `set_timer` provided the elapsed time since the last
sync does not exceed the remaining of any other active slot (no missed
deadline).  `WF` says the uint32 fields are in range, true of every state
the C program holds. -/
theorem C4_invariant_preservation :
    (∀ (s : TimerState) (timer_id : Nat), TableInv s →
        TableInv (remove_timer s timer_id)) ∧
    (∀ (s : TimerState) (now : Nat), TableInv s → WF s →
        TableInv (timer_interrupt s now)) ∧
    (∀ (s : TimerState) (timer_id P now : Nat), TableInv s → WF s →
        (∀ i : Fin TMR_NUM, (i : Nat) ≠ timer_id → (s.timers i).wait_us ≠ 0 →
          wsub now s.last_update_timer_value ≤ (s.timers i).remain) →
        TableInv (set_timer s timer_id P now)) := by
  refine ⟨?_, ?_, ?_⟩
  · intro s timer_id hInv
    by_cases h : timer_id < TMR_NUM
    · by_cases hin : (s.timers ⟨timer_id, h⟩).wait_us = 0
      · rw [remove_timer_inactive s timer_id h hin]
        exact hInv
      · rw [remove_timer_active s timer_id h hin]
        intro i hw
        have hw' : (Function.update s.timers ⟨timer_id, h⟩ ⟨0, 0, 0⟩ i).wait_us ≠ 0 := hw
        show (Function.update s.timers ⟨timer_id, h⟩ ⟨0, 0, 0⟩ i).remain ≤
          (Function.update s.timers ⟨timer_id, h⟩ ⟨0, 0, 0⟩ i).wait_us
        by_cases hi : i = ⟨timer_id, h⟩
        · subst hi
          simp [Function.update_same] at hw'
        · rw [Function.update_noteq hi] at hw' ⊢
          exact hInv i hw'
    · rw [remove_timer_neg s timer_id h]
      exact hInv
  · intro s now hInv hwf i hw
    have hw0 : (s.timers i).wait_us ≠ 0 := by
      rwa [show (timer_interrupt s now).timers i = interrupt_timers s.timers i from rfl,
        interrupt_timers_wait] at hw
    show (interrupt_timers s.timers i).remain ≤ (interrupt_timers s.timers i).wait_us
    rw [interrupt_timers_wait]
    unfold interrupt_timers
    rw [if_neg hw0]
    split_ifs with h0
    · simp
    · have h1 := fmr_le_active s.timers i hw0
      have h2 := (hwf i).2.1
      have h3 := hInv i hw0
      simp only []
      rw [wsub_of_le h1 h2]
      omega
  · intro s timer_id P now hInv hwf helapsed
    by_cases h : timer_id < TMR_NUM
    · rw [set_timer_pos s timer_id P now h]
      intro i hw
      have hw' : (set_timer_timers s ⟨timer_id, h⟩ P now i).wait_us ≠ 0 := hw
      show (set_timer_timers s ⟨timer_id, h⟩ P now i).remain ≤
        (set_timer_timers s ⟨timer_id, h⟩ P now i).wait_us
      simp only [set_timer_timers] at hw' ⊢
      by_cases hit : i = ⟨timer_id, h⟩
      · rw [if_pos hit]
      · rw [if_neg hit] at hw' ⊢
        by_cases hw0 : (s.timers i).wait_us = 0
        · rw [if_pos hw0] at hw' ⊢
          exact hInv i hw'
        · rw [if_neg hw0] at hw' ⊢
          have hvne : (i : Nat) ≠ timer_id := fun hv => hit (Fin.ext hv)
          have h1 : wsub now s.last_update_timer_value ≤ (s.timers i).remain :=
            helapsed i hvne hw0
          have h2 : (s.timers i).remain < U32MOD := (hwf i).2.1
          have h3 := hInv i hw0
          simp only []
          rw [wsub_mod_left, wsub_of_le h1 h2]
          omega
    · rw [set_timer_neg s timer_id P now h]
      exact hInv

/-- Witness for the amended C4: all three preservation clauses instantiated
at concrete states. -/
theorem C4_invariant_preservation_witness :
    (TableInv stateE ∧ WF stateE ∧
      (∀ i : Fin TMR_NUM, (i : Nat) ≠ 3 → (stateE.timers i).wait_us ≠ 0 →
        wsub 20 stateE.last_update_timer_value ≤ (stateE.timers i).remain)) ∧
    TableInv (remove_timer stateE 1) ∧
    TableInv (timer_interrupt stateE 30) ∧
    TableInv (set_timer stateE 3 50 20) :=
  ⟨⟨by decide, by decide, by decide⟩,
   C4_invariant_preservation.1 stateE 1 (by decide),
   C4_invariant_preservation.2.1 stateE 30 (by decide) (by decide),
   C4_invariant_preservation.2.2 stateE 3 50 20 (by decide) (by decide) (by decide)⟩

/-- Claim C5: `find_minimal_remain` equals the spec-side minimum
`minActiveRemain` (the smallest `remaining` over active slots), returns the
sentinel `0xffffffff` when no slot is active, is a lower bound on every
active slot's remaining, and is attained by some active slot when one
exists.  It is a pure function of the table, so it mutates nothing.  The
hypothesis `hr` says the active `remain` fields are uint32 values, true of
every state the C program holds. -/
theorem C5_find_minimal_remain_correct (t : Fin TMR_NUM → TimerSlot)
    (hr : ∀ i, (t i).wait_us ≠ 0 → (t i).remain < U32MOD) :
    find_minimal_remain t = minActiveRemain t ∧
    ((∀ i, (t i).wait_us = 0) → find_minimal_remain t = 0xffffffff) ∧
    (∀ i, (t i).wait_us ≠ 0 → find_minimal_remain t ≤ (t i).remain) ∧
    ((∃ i, (t i).wait_us ≠ 0) →
      ∃ i, (t i).wait_us ≠ 0 ∧ find_minimal_remain t = (t i).remain) := by
  refine ⟨fmr_eq_minActiveRemain t hr, fmr_no_active t, fun i => fmr_le_active t i, ?_⟩
  rintro ⟨i0, hi0⟩
  exact fmr_attained t hr i0 hi0

/-- Witness for C5 at the table of `stateE`: the minimum 30 is attained. -/
theorem C5_find_minimal_remain_correct_witness :
    (∀ i, (stateE.timers i).wait_us ≠ 0 → (stateE.timers i).remain < U32MOD) ∧
    (∃ i, (stateE.timers i).wait_us ≠ 0) ∧
    ∃ i, (stateE.timers i).wait_us ≠ 0 ∧
      find_minimal_remain stateE.timers = (stateE.timers i).remain :=
  ⟨by decide, by decide,
   (C5_find_minimal_remain_correct stateE.timers (by decide)).2.2.2 (by decide)⟩

/-- Claim C6: removing an active valid id zeroes that slot's `period`,
`remaining`, and `fire_count` and changes nothing else — every other slot,
the baseline, the compare register, and the clear register are untouched. -/
theorem C6_remove_timer_frame (s : TimerState) (timer_id : Nat)
    (h : timer_id < TMR_NUM) (ha : (s.timers ⟨timer_id, h⟩).wait_us ≠ 0) :
    (remove_timer s timer_id).timers ⟨timer_id, h⟩ = ⟨0, 0, 0⟩ ∧
    (∀ j, j ≠ ⟨timer_id, h⟩ → (remove_timer s timer_id).timers j = s.timers j) ∧
    (remove_timer s timer_id).last_update_timer_value = s.last_update_timer_value ∧
    (remove_timer s timer_id).tmr_cmp_reg = s.tmr_cmp_reg ∧
    (remove_timer s timer_id).tmr_clr_reg = s.tmr_clr_reg := by
  rw [remove_timer_active s timer_id h ha]
  exact ⟨Function.update_same _ _ _,
    fun j hj => Function.update_noteq hj _ _, rfl, rfl, rfl⟩

/-- Witness for C6: removing active slot 1 of `stateE`. -/
theorem C6_remove_timer_frame_witness :
    (1 < TMR_NUM ∧ (stateE.timers ⟨1, by norm_num⟩).wait_us ≠ 0) ∧
    ((remove_timer stateE 1).timers ⟨1, by norm_num⟩ = ⟨0, 0, 0⟩ ∧
      (∀ j, j ≠ ⟨1, by norm_num⟩ → (remove_timer stateE 1).timers j = stateE.timers j) ∧
      (remove_timer stateE 1).last_update_timer_value = stateE.last_update_timer_value ∧
      (remove_timer stateE 1).tmr_cmp_reg = stateE.tmr_cmp_reg ∧
      (remove_timer stateE 1).tmr_clr_reg = stateE.tmr_clr_reg) :=
  ⟨⟨by norm_num, by decide⟩, C6_remove_timer_frame stateE 1 (by norm_num) (by decide)⟩

/-- Claim C7: `remove_timer` is idempotent — two calls on the same id end in
exactly the state one call produces — and a call on an already-inactive
valid slot is a no-op that mutates no state (the C code only prints an
informational message). -/
theorem C7_remove_idempotent :
    (∀ (s : TimerState) (timer_id : Nat),
        remove_timer (remove_timer s timer_id) timer_id = remove_timer s timer_id) ∧
    (∀ (s : TimerState) (timer_id : Nat) (h : timer_id < TMR_NUM),
        (s.timers ⟨timer_id, h⟩).wait_us = 0 → remove_timer s timer_id = s) := by
  refine ⟨?_, fun s timer_id h hin => remove_timer_inactive s timer_id h hin⟩
  intro s timer_id
  by_cases h : timer_id < TMR_NUM
  · by_cases hin : (s.timers ⟨timer_id, h⟩).wait_us = 0
    · rw [remove_timer_inactive s timer_id h hin, remove_timer_inactive s timer_id h hin]
    · have hgone : ((remove_timer s timer_id).timers ⟨timer_id, h⟩).wait_us = 0 := by
        rw [remove_timer_active s timer_id h hin]
        show (Function.update s.timers ⟨timer_id, h⟩ ⟨0, 0, 0⟩ ⟨timer_id, h⟩).wait_us = 0
        rw [Function.update_same]
      exact remove_timer_inactive _ timer_id h hgone
  · rw [remove_timer_neg s timer_id h, remove_timer_neg s timer_id h]

/-- Witness for C7: remove slot 1 of `stateE` twice; remove inactive slot 3
of the initial state. -/
theorem C7_remove_idempotent_witness :
    remove_timer (remove_timer stateE 1) 1 = remove_timer stateE 1 ∧
    (3 < TMR_NUM ∧ (initState.timers ⟨3, by norm_num⟩).wait_us = 0 ∧
      remove_timer initState 3 = initState) :=
  ⟨C7_remove_idempotent.1 stateE 1,
   by norm_num, by decide, C7_remove_idempotent.2 initState 3 (by norm_num) (by decide)⟩

/-- Counterexample to claim C8: `fire_count` is a uint32 and
`times_fired++` wraps.  In `stateWrap`, slot 0 is active with
`times_fired = 0xffffffff`; one `timer_interrupt` (not an install, and the
slot stays active) fires it and its `fire_count` drops from `0xffffffff`
to `0` — a decrease, and a reset to 0, caused by an operation other than an
install naming the id. -/
theorem C8_fire_count_wraps_cex :
    (stateWrap.timers 0).wait_us ≠ 0 ∧
    ((applyOp (Op.tick 1) stateWrap).timers 0).wait_us ≠ 0 ∧
    ((applyOp (Op.tick 1) stateWrap).timers 0).times_fired = 0 ∧
    (stateWrap.timers 0).times_fired = 4294967295 :=
  ⟨by decide, by decide, by decide, by decide⟩

/-- Amended C8: across any sequence of operations this holds at every step
(stated for one arbitrary operation).  While a slot stays active, its
`fire_count` decreases only if the operation is an install naming that id
(which resets it to 0) or the uint32 increment wrapped from `2^32 - 1`; and
it becomes 0 only if it already was 0, the operation is an install naming
that id, or it wrapped from `2^32 - 1`. -/
theorem C8_fire_count_monotone (op : Op) (s : TimerState) (i : Fin TMR_NUM)
    (hwf : WF s) (hb : (s.timers i).wait_us ≠ 0)
    (ha : ((applyOp op s).timers i).wait_us ≠ 0) :
    ((((applyOp op s).timers i).times_fired < (s.timers i).times_fired →
        (∃ P now, op = Op.install (i : Nat) P now) ∨
        (∃ now, op = Op.tick now ∧ (s.timers i).times_fired = U32MOD - 1 ∧
          ((applyOp op s).timers i).times_fired = 0)) ∧
      (((applyOp op s).timers i).times_fired = 0 →
        (s.timers i).times_fired = 0 ∨ (∃ P now, op = Op.install (i : Nat) P now) ∨
        (s.timers i).times_fired = U32MOD - 1)) := by
  cases op with
  | install id P now =>
    by_cases h : id < TMR_NUM
    · by_cases hit : i = (⟨id, h⟩ : Fin TMR_NUM)
      · have hval : (i : Nat) = id := by rw [hit]
        have h0 : ((applyOp (Op.install id P now) s).timers i).times_fired = 0 := by
          show ((set_timer s id P now).timers i).times_fired = 0
          rw [set_timer_pos s id P now h]
          show (set_timer_timers s ⟨id, h⟩ P now i).times_fired = 0
          simp [set_timer_timers, hit]
        rw [h0]
        constructor
        · intro _
          exact Or.inl ⟨P, now, by rw [hval]⟩
        · intro _
          exact Or.inr (Or.inl ⟨P, now, by rw [hval]⟩)
      · have h0 : ((applyOp (Op.install id P now) s).timers i).times_fired
            = (s.timers i).times_fired := by
          show ((set_timer s id P now).timers i).times_fired = _
          rw [set_timer_pos s id P now h]
          show (set_timer_timers s ⟨id, h⟩ P now i).times_fired = _
          simp only [set_timer_timers, if_neg hit]
          split_ifs <;> rfl
        rw [h0]
        exact ⟨fun hlt => absurd hlt (lt_irrefl _), fun h0' => Or.inl h0'⟩
    · have h0 : applyOp (Op.install id P now) s = s := set_timer_neg s id P now h
      rw [h0]
      exact ⟨fun hlt => absurd hlt (lt_irrefl _), fun h0' => Or.inl h0'⟩
  | remove id =>
    by_cases h : id < TMR_NUM
    · by_cases hin : (s.timers ⟨id, h⟩).wait_us = 0
      · have h0 : applyOp (Op.remove id) s = s := remove_timer_inactive s id h hin
        rw [h0]
        exact ⟨fun hlt => absurd hlt (lt_irrefl _), fun h0' => Or.inl h0'⟩
      · by_cases hit : i = (⟨id, h⟩ : Fin TMR_NUM)
        · exfalso
          apply ha
          show ((remove_timer s id).timers i).wait_us = 0
          rw [remove_timer_active s id h hin, hit]
          show (Function.update s.timers ⟨id, h⟩ ⟨0, 0, 0⟩ ⟨id, h⟩).wait_us = 0
          rw [Function.update_same]
        · have h0 : (applyOp (Op.remove id) s).timers i = s.timers i := by
            show (remove_timer s id).timers i = s.timers i
            rw [remove_timer_active s id h hin]
            exact Function.update_noteq hit _ _
          rw [h0]
          exact ⟨fun hlt => absurd hlt (lt_irrefl _), fun h0' => Or.inl h0'⟩
    · have h0 : applyOp (Op.remove id) s = s := remove_timer_neg s id h
      rw [h0]
      exact ⟨fun hlt => absurd hlt (lt_irrefl _), fun h0' => Or.inl h0'⟩
  | tick now =>
    have hT : (applyOp (Op.tick now) s).timers i = interrupt_timers s.timers i := rfl
    rw [hT]
    unfold interrupt_timers
    rw [if_neg hb]
    have htf : (s.timers i).times_fired < U32MOD := (hwf i).2.2
    split_ifs with hfire
    · constructor
      · intro hlt
        simp only [] at hlt
        have h1 : (s.timers i).times_fired = U32MOD - 1 ∧
            ((s.timers i).times_fired + 1) % U32MOD = 0 := by
          simp only [U32MOD] at htf hlt ⊢
          omega
        exact Or.inr ⟨now, rfl, h1.1, h1.2⟩
      · intro h0'
        simp only [] at h0'
        have h1 : (s.timers i).times_fired = U32MOD - 1 := by
          simp only [U32MOD] at htf h0' ⊢
          omega
        exact Or.inr (Or.inr h1)
    · simp only []
      exact ⟨fun hlt => absurd hlt (lt_irrefl _), fun h0' => Or.inl h0'⟩

/-- Witness for the amended C8: a `timer_interrupt` fires slot 1 of
`stateE`, whose `fire_count` goes from 1 to 2. -/
theorem C8_fire_count_monotone_witness :
    (WF stateE ∧ (stateE.timers 1).wait_us ≠ 0 ∧
      ((applyOp (Op.tick 30) stateE).timers 1).wait_us ≠ 0) ∧
    ((((applyOp (Op.tick 30) stateE).timers 1).times_fired <
          (stateE.timers 1).times_fired →
        (∃ P now, Op.tick 30 = Op.install ((1 : Fin TMR_NUM) : Nat) P now) ∨
        (∃ now, Op.tick 30 = Op.tick now ∧
          (stateE.timers 1).times_fired = U32MOD - 1 ∧
          ((applyOp (Op.tick 30) stateE).timers 1).times_fired = 0)) ∧
      (((applyOp (Op.tick 30) stateE).timers 1).times_fired = 0 →
        (stateE.timers 1).times_fired = 0 ∨
        (∃ P now, Op.tick 30 = Op.install ((1 : Fin TMR_NUM) : Nat) P now) ∨
        (stateE.timers 1).times_fired = U32MOD - 1)) :=
  ⟨⟨by decide, by decide, by decide⟩,
   C8_fire_count_monotone (Op.tick 30) stateE 1 (by decide) (by decide) (by decide)⟩

/-- Claim C9: for any id at or beyond `TMR_NUM = 10`, both `set_timer` (for
any period) and `remove_timer` report the error and return early: the whole
state — timer table, baseline, compare and clear registers — is exactly
unchanged. -/
theorem C9_invalid_id_rejected (s : TimerState) (timer_id P now : Nat)
    (h : TMR_NUM ≤ timer_id) :
    set_timer s timer_id P now = s ∧ remove_timer s timer_id = s :=
  ⟨set_timer_neg s timer_id P now (by omega),
   remove_timer_neg s timer_id (by omega)⟩

/-- Witness for C9 at id 10. -/
theorem C9_invalid_id_rejected_witness :
    TMR_NUM ≤ 10 ∧
    (set_timer stateE 10 5 0 = stateE ∧ remove_timer stateE 10 = stateE) :=
  ⟨by norm_num, C9_invalid_id_rejected stateE 10 5 0 (by norm_num)⟩

/-- Claim C10: immediately after any `timer_interrupt`, every active slot
has `remaining != 0` (firing slots reload to their nonzero period; the
others keep a nonzero difference), so whenever any timer is active the
compare register is armed at `last_update_timer_value` plus a nonzero
offset (namely the new `find_minimal_remain`, which is nonzero). -/
theorem C10_post_interrupt_remaining_nonzero (s : TimerState) (now : Nat) :
    (∀ i, (s.timers i).wait_us ≠ 0 → ((timer_interrupt s now).timers i).remain ≠ 0) ∧
    ((∃ i, (s.timers i).wait_us ≠ 0) →
      find_minimal_remain (timer_interrupt s now).timers ≠ 0 ∧
      (timer_interrupt s now).tmr_cmp_reg =
        ((timer_interrupt s now).last_update_timer_value +
          find_minimal_remain (timer_interrupt s now).timers) % U32MOD) := by
  constructor
  · intro i hw
    exact interrupt_timers_remain_ne s.timers i hw
  · rintro ⟨i0, hi0⟩
    refine ⟨?_, rfl⟩
    have hT : (timer_interrupt s now).timers = interrupt_timers s.timers := rfl
    rw [hT]
    rcases fmrFold_attained (interrupt_timers s.timers) (List.finRange TMR_NUM)
        0xffffffff with hs | ⟨i, _, ha, he⟩
    · rw [show find_minimal_remain (interrupt_timers s.timers) = 0xffffffff from hs]
      norm_num
    · rw [show find_minimal_remain (interrupt_timers s.timers)
          = (interrupt_timers s.timers i).remain from he]
      have hw : (s.timers i).wait_us ≠ 0 := by rwa [interrupt_timers_wait] at ha
      exact interrupt_timers_remain_ne s.timers i hw

/-- Witness for C10 at `stateE`. -/
theorem C10_post_interrupt_remaining_nonzero_witness :
    (∃ i, (stateE.timers i).wait_us ≠ 0) ∧
    (find_minimal_remain (timer_interrupt stateE 30).timers ≠ 0 ∧
      (timer_interrupt stateE 30).tmr_cmp_reg =
        ((timer_interrupt stateE 30).last_update_timer_value +
          find_minimal_remain (timer_interrupt stateE 30).timers) % U32MOD) :=
  ⟨by decide, (C10_post_interrupt_remaining_nonzero stateE 30).2 (by decide)⟩
